import Mathlib

/-!
Verification of the link-resolution and source-ranking chain of the
`automated-scraper` repository (`src/importer.js`, class `AnimeDekhoImporter`,
methods `getEpisodeLink`, `_resolveSource`, `_isDirectVideoLink`,
`_isTutorialLink`).

The JavaScript code is shallowly embedded as pure Lean functions.  External
library calls (network fetch via `fetchHTML`, the regular-expression engine
behind `extractAllMatches` / `String.prototype.match`, Node's
`Buffer.from(_, 'base64')` decoder and the WHATWG `URL` parser) are modelled
as oracle fields of a `Net` structure: each oracle returns exactly the data
the corresponding library call would return (`Option` encodes a thrown
exception / `null`), and every piece of logic of the resolver itself —
loops, conditionals, classification, de-duplication, fallback policy — is
translated literally from the source.
-/

/-! ## String primitives (models of the JavaScript string operations) -/

/-- List-level: does `needle` occur as a leading block of `hay`? -/
def isPrefixL : List Char → List Char → Bool
  | [], _ => true
  | _ :: _, [] => false
  | a :: as, b :: bs => a == b && isPrefixL as bs

/-- List-level substring occurrence (JavaScript `String.prototype.includes`). -/
def containsL (needle : List Char) : List Char → Bool
  | [] => isPrefixL needle []
  | hay@(_ :: t) => isPrefixL needle hay || containsL needle t

/-- `containsSub s pat` models `s.includes(pat)` of JavaScript. -/
def containsSub (s pat : String) : Bool :=
  containsL pat.data s.data

/-- `startsWithStr s pre` models `s.startsWith(pre)` of JavaScript. -/
def startsWithStr (s pre : String) : Bool :=
  isPrefixL pre.data s.data

/-- String equality as a Bool (JavaScript `===` on strings). -/
def eqStr (a b : String) : Bool :=
  a.data == b.data

/-- `memStr l s` models `l.includes(s)` on a JavaScript array of strings. -/
def memStr (l : List String) (s : String) : Bool :=
  l.any (eqStr s)

/-- ASCII lower-casing of one character (`String.prototype.toLowerCase`
on the ASCII strings this code handles). -/
def lowerChar (c : Char) : Char :=
  if 65 ≤ c.toNat ∧ c.toNat ≤ 90 then Char.ofNat (c.toNat + 32) else c

/-- `lowerStr s` models `s.toLowerCase()`. -/
def lowerStr (s : String) : String :=
  ⟨s.data.map lowerChar⟩

/-- JavaScript truthiness of a string value: `""` is falsy. -/
def jsTruthy (s : String) : Bool :=
  !(s.data.isEmpty)

/-- JavaScript truthiness of a `string | null` variable
(`null` and `""` are falsy). -/
def jsTruthyOpt : Option String → Bool
  | none => false
  | some s => jsTruthy s

/-! ## Constants of `src/importer.js` -/

/-- `const SITE_BASE = 'https://animedekho.app'` (importer.js line 20). -/
def SITE_BASE : String := "https://animedekho.app"

/-- The `providers` allow-list of `_isDirectVideoLink` (lines 637-649). -/
def providers : List String :=
  ["as-cdn21.top", "play.zephyrflick.top", "vidstreaming", "dood",
   "stream", "vidmoly", "gdmirrorbot", "short.icu", "hubcloud",
   "pixeldrain", "streamwish"]

/-- The `tutorialPatterns` deny-list of `_isTutorialLink` (lines 658-670). -/
def tutorialPatterns : List String :=
  ["youtube.com/embed/53ga7MRcQGg", "youtube.com/embed/JLD8SyY3o6Q",
   "youtube.com/embed/NNrCwPAj1IY", "youtube.com/embed/xV5Wm7qixyQ",
   "youtube.com/embed/KOWcj7XKnfQ", "1122154449",
   "youtube.com/embed/watch", "how to watch", "tutorial", "skip-ad"]

/-! ## Classification predicates (importer.js lines 635-680) -/

/-- `_isDirectVideoLink(url)`: `if (!url) return false;
return providers.some(p => url.toLowerCase().includes(p.toLowerCase()))`. -/
def isDirectVideoLink (url : String) : Bool :=
  if url.data.isEmpty then false
  else providers.any fun p => containsSub (lowerStr url) (lowerStr p)

/-- `_isTutorialLink(url)` (lines 656-680): deny-list substring match,
then the unconditional YouTube-embed check. -/
def isTutorialLink (url : String) : Bool :=
  if url.data.isEmpty then false
  else
    let isTutorial := tutorialPatterns.any fun p =>
      containsSub (lowerStr url) (lowerStr p)
    if !isTutorial &&
        (containsSub url "youtube.com/embed/" || containsSub url "youtu.be/") then
      true
    else isTutorial

/-! ## The external-collaborator oracle

`fetch` models `fetchHTML` (`none` = the promise rejected);
`dataSrcPayloads`, `dl2Payloads`, `iframeSrcs` model
`extractAllMatches(html, regex)` for the three capture regexes of
`getEpisodeLink` / `_resolveSource`, returning the first capture group of
each match in order; `scriptLinks` models `embedHtml.match(scriptRegex)`
(`none` = `null`); `b64decode` models
`Buffer.from(s, 'base64').toString('utf8')` (`none` = it threw);
`urlOrigin` models `new URL(u).origin` (`none` = it threw). -/
structure Net where
  fetch : String → Option String
  dataSrcPayloads : String → List String
  dl2Payloads : String → List String
  iframeSrcs : String → List String
  scriptLinks : String → Option (List String)
  b64decode : String → Option String
  urlOrigin : String → Option String

/-! ## Candidate extraction (getEpisodeLink step 1, lines 521-555) -/

/-- One iteration of the `data-src` / `dl2.php` loops: decode the base64
payload, keep it when it decodes, starts with `http` and is new
(lines 527-534 and 539-546). -/
def addEncoded (net : Net) (acc : List String) (payload : String) : List String :=
  match net.b64decode payload with
  | some decoded =>
    if startsWithStr decoded "http" && !memStr acc decoded then acc ++ [decoded]
    else acc
  | none => acc

/-- The iframe-src normalization of line 553:
`if (src.startsWith('/')) src = SITE_BASE + src`. -/
def normIframe (src : String) : String :=
  if startsWithStr src "/" then SITE_BASE ++ src else src

/-- One iteration of the raw-iframe loop (lines 551-555). -/
def addIframe (acc : List String) (src : String) : List String :=
  let src2 := normIframe src
  if !memStr acc src2 then acc ++ [src2] else acc

/-- The `serverSources` list after the two encoded phases
(`data-src` then `dl2.php`). -/
def encodedSources (net : Net) (html : String) : List String :=
  (net.dl2Payloads html).foldl (addEncoded net)
    ((net.dataSrcPayloads html).foldl (addEncoded net) [])

/-- The full `serverSources` list after all three extraction phases. -/
def extractSources (net : Net) (html : String) : List String :=
  (net.iframeSrcs html).foldl addIframe (encodedSources net html)

/-! ## `_resolveSource` (lines 594-630) -/

/-- The nested-iframe src normalization of `_resolveSource`
(lines 602-611): protocol-relative `//` gets `https:`, root-relative `/`
gets the origin of the page being resolved (or `SITE_BASE` when the URL
parser throws). -/
def normalizeNested (net : Net) (sourceUrl src : String) : String :=
  let fullSrc := if startsWithStr src "//" then "https:" ++ src else src
  if startsWithStr fullSrc "/" then
    match net.urlOrigin sourceUrl with
    | some origin => origin ++ fullSrc
    | none => SITE_BASE ++ fullSrc
  else fullSrc

/-- The iframe loop of `_resolveSource` (lines 600-615): skip tutorial
links, return the first direct video link. -/
def iframeScan (net : Net) (sourceUrl : String) : List String → Option String
  | [] => none
  | src :: rest =>
    let fullSrc := normalizeNested net sourceUrl src
    if isTutorialLink fullSrc then iframeScan net sourceUrl rest
    else if isDirectVideoLink fullSrc then some fullSrc
    else iframeScan net sourceUrl rest

/-- The script-regex fallback loop of `_resolveSource` (lines 620-624):
return the first non-tutorial link. -/
def scriptScan : List String → Option String
  | [] => none
  | link :: rest => if !isTutorialLink link then some link else scriptScan rest

/-- `_resolveSource(sourceUrl)` (lines 594-630).  A fetch failure is caught
and becomes `none` (line 627-629). -/
def resolveSource (net : Net) (sourceUrl : String) : Option String :=
  match net.fetch sourceUrl with
  | none => none
  | some embedHtml =>
    match iframeScan net sourceUrl (net.iframeSrcs embedHtml) with
    | some r => some r
    | none =>
      match net.scriptLinks embedHtml with
      | some links => scriptScan links
      | none => none

/-! ## The resolution loop of `getEpisodeLink` (step 2, lines 557-583) -/

/-- The `for (const source of serverSources)` loop with its
`fallbackInternalLink` accumulator (lines 558-583), translated branch by
branch.  `fb` is the current value of `fallbackInternalLink`
(`none` = `null`); the `!fallbackInternalLink` and `if (resolved)`
truthiness tests of the source are modelled by `jsTruthyOpt` / `jsTruthy`. -/
def resolveLoop (net : Net) : Option String → List String → Option String
  | fb, [] => fb
  | fb, source :: rest =>
    if isTutorialLink source then resolveLoop net fb rest
    else if isDirectVideoLink source then some source
    else if containsSub source "animedekho.app/embed" ||
            containsSub source "animedekho.app/redirect" then
      match resolveSource net source with
      | some resolved =>
        if jsTruthy resolved then
          if isDirectVideoLink resolved then some resolved
          else if !jsTruthyOpt fb && !isTutorialLink resolved then
            resolveLoop net (some resolved) rest
          else resolveLoop net fb rest
        else resolveLoop net fb rest
      | none => resolveLoop net fb rest
    else if !isTutorialLink source then
      if !jsTruthyOpt fb then resolveLoop net (some source) rest
      else resolveLoop net fb rest
    else resolveLoop net fb rest

/-- The watch-page URL built at line 518. -/
def watchUrl (episodeId : String) : String :=
  SITE_BASE ++ "/epi/" ++ episodeId ++ "/"

/-- `getEpisodeLink(episodeId)` (lines 516-589): fetch the episode page
(a fetch failure is caught at lines 585-588 and yields `null`), extract
the candidate sources, then run the resolution loop; its result —
`fallbackInternalLink` when no direct link was found — is returned. -/
def getEpisodeLink (net : Net) (episodeId : String) : Option String :=
  match net.fetch (watchUrl episodeId) with
  | none => none
  | some html => resolveLoop net none (extractSources net html)

/-! ## Basic lemmas about the string primitives -/

theorem eqStr_iff {a b : String} : eqStr a b = true ↔ a = b := by
  cases a; cases b
  simp only [eqStr, beq_iff_eq]
  exact ⟨fun h => by rw [h], fun h => by cases h; rfl⟩

theorem memStr_iff {l : List String} {s : String} :
    memStr l s = true ↔ s ∈ l := by
  simp [memStr, List.any_eq_true, eqStr_iff]

theorem memStr_false_iff {l : List String} {s : String} :
    memStr l s = false ↔ s ∉ l := by
  rw [← Bool.not_eq_true, not_iff_not]
  exact memStr_iff

theorem jsTruthy_of_direct {s : String} (h : isDirectVideoLink s = true) :
    jsTruthy s = true := by
  unfold isDirectVideoLink at h
  unfold jsTruthy
  by_cases hd : s.data.isEmpty
  · simp [hd] at h
  · simp [hd]

/-! ## Lemmas about candidate extraction -/
theorem addEncoded_cases (net : Net) (acc : List String) (p : String) :
    addEncoded net acc p = acc ∨
      ∃ d, net.b64decode p = some d ∧ startsWithStr d "http" = true ∧
        d ∉ acc ∧ addEncoded net acc p = acc ++ [d] := by
  unfold addEncoded
  cases hb : net.b64decode p with
  | none => left; rfl
  | some d =>
    by_cases hs : startsWithStr d "http" = true
    · by_cases hm : memStr acc d = true
      · left; simp [hs, hm]
      · have hmf : memStr acc d = false := Bool.eq_false_iff.mpr hm
        right
        exact ⟨d, rfl, hs, memStr_false_iff.mp hmf, by simp [hs, hmf]⟩
    · have hsf : startsWithStr d "http" = false := Bool.eq_false_iff.mpr hs
      left; simp [hsf]

theorem foldl_addEncoded_extends (net : Net) (l : List String) (acc : List String) :
    ∃ d, l.foldl (addEncoded net) acc = acc ++ d ∧
      ∀ x ∈ d, (∃ p ∈ l, net.b64decode p = some x) ∧
        startsWithStr x "http" = true := by
  induction l generalizing acc with
  | nil =>
    refine ⟨[], by simp, ?_⟩
    intro x hx
    simp at hx
  | cons p rest ih =>
    simp only [List.foldl_cons]
    rcases addEncoded_cases net acc p with h | ⟨d, hb, hs, _, h⟩
    · rw [h]
      obtain ⟨dd, hdd, hprov⟩ := ih acc
      refine ⟨dd, hdd, fun x hx => ?_⟩
      obtain ⟨⟨q, hq, hbq⟩, hsx⟩ := hprov x hx
      exact ⟨⟨q, List.mem_cons_of_mem _ hq, hbq⟩, hsx⟩
    · rw [h]
      obtain ⟨dd, hdd, hprov⟩ := ih (acc ++ [d])
      refine ⟨[d] ++ dd, by rw [hdd, List.append_assoc], fun x hx => ?_⟩
      rcases List.mem_append.mp hx with hx | hx
      · have hxd : x = d := by simpa using hx
        subst hxd
        exact ⟨⟨p, List.mem_cons_self _ _, hb⟩, hs⟩
      · obtain ⟨⟨q, hq, hbq⟩, hsx⟩ := hprov x hx
        exact ⟨⟨q, List.mem_cons_of_mem _ hq, hbq⟩, hsx⟩

theorem addEncoded_nodup (net : Net) {acc : List String} (h : acc.Nodup)
    (p : String) : (addEncoded net acc p).Nodup := by
  rcases addEncoded_cases net acc p with heq | ⟨d, _, _, hnot, heq⟩
  · rw [heq]; exact h
  · rw [heq]
    simp [List.nodup_append, h, hnot]

theorem foldl_addEncoded_nodup (net : Net) (l : List String)
    {acc : List String} (h : acc.Nodup) :
    (l.foldl (addEncoded net) acc).Nodup := by
  induction l generalizing acc with
  | nil => exact h
  | cons p rest ih => exact ih (addEncoded_nodup net h p)

theorem foldl_addEncoded_mem (net : Net) (l : List String)
    {acc : List String} {x : String} (h : x ∈ acc) :
    x ∈ l.foldl (addEncoded net) acc := by
  obtain ⟨d, hd, _⟩ := foldl_addEncoded_extends net l acc
  rw [hd]
  exact List.mem_append_left _ h

theorem foldl_addEncoded_complete (net : Net) {l : List String} {p d : String}
    (hp : p ∈ l) (hb : net.b64decode p = some d)
    (hs : startsWithStr d "http" = true) (acc : List String) :
    d ∈ l.foldl (addEncoded net) acc := by
  induction l generalizing acc with
  | nil => cases hp
  | cons q rest ih =>
    simp only [List.foldl_cons]
    rcases List.mem_cons.mp hp with rfl | hq
    · have hd : d ∈ addEncoded net acc p := by
        unfold addEncoded
        rw [hb]
        by_cases hm : memStr acc d = true
        · simp [hs, hm]
          exact memStr_iff.mp hm
        · have hmf : memStr acc d = false := Bool.eq_false_iff.mpr hm
          simp [hs, hmf]
      exact foldl_addEncoded_mem net rest hd
    · exact ih hq _

theorem addIframe_cases (acc : List String) (s : String) :
    (normIframe s ∈ acc ∧ addIframe acc s = acc) ∨
      (normIframe s ∉ acc ∧ addIframe acc s = acc ++ [normIframe s]) := by
  unfold addIframe
  by_cases hm : memStr acc (normIframe s) = true
  · left; exact ⟨memStr_iff.mp hm, by simp [hm]⟩
  · have hmf : memStr acc (normIframe s) = false := Bool.eq_false_iff.mpr hm
    right; exact ⟨memStr_false_iff.mp hmf, by simp [hmf]⟩

theorem foldl_addIframe_extends (l : List String) (acc : List String) :
    ∃ d, l.foldl addIframe acc = acc ++ d ∧
      ∀ x ∈ d, ∃ s ∈ l, x = normIframe s := by
  induction l generalizing acc with
  | nil =>
    refine ⟨[], by simp, ?_⟩
    intro x hx
    simp at hx
  | cons s rest ih =>
    simp only [List.foldl_cons]
    rcases addIframe_cases acc s with ⟨_, h⟩ | ⟨_, h⟩
    · rw [h]
      obtain ⟨dd, hdd, hprov⟩ := ih acc
      refine ⟨dd, hdd, fun x hx => ?_⟩
      obtain ⟨t, ht, hxt⟩ := hprov x hx
      exact ⟨t, List.mem_cons_of_mem _ ht, hxt⟩
    · rw [h]
      obtain ⟨dd, hdd, hprov⟩ := ih (acc ++ [normIframe s])
      refine ⟨[normIframe s] ++ dd, by rw [hdd, List.append_assoc],
        fun x hx => ?_⟩
      rcases List.mem_append.mp hx with hx | hx
      · have hxs : x = normIframe s := by simpa using hx
        exact ⟨s, List.mem_cons_self _ _, hxs⟩
      · obtain ⟨t, ht, hxt⟩ := hprov x hx
        exact ⟨t, List.mem_cons_of_mem _ ht, hxt⟩

theorem addIframe_nodup {acc : List String} (h : acc.Nodup) (s : String) :
    (addIframe acc s).Nodup := by
  rcases addIframe_cases acc s with ⟨_, heq⟩ | ⟨hnot, heq⟩
  · rw [heq]; exact h
  · rw [heq]
    simp [List.nodup_append, h, hnot]

theorem foldl_addIframe_nodup (l : List String) {acc : List String}
    (h : acc.Nodup) : (l.foldl addIframe acc).Nodup := by
  induction l generalizing acc with
  | nil => exact h
  | cons s rest ih => exact ih (addIframe_nodup h s)

theorem foldl_addIframe_mem (l : List String) {acc : List String} {x : String}
    (h : x ∈ acc) : x ∈ l.foldl addIframe acc := by
  obtain ⟨d, hd, _⟩ := foldl_addIframe_extends l acc
  rw [hd]
  exact List.mem_append_left _ h

theorem foldl_addIframe_complete {l : List String} {s : String} (hs : s ∈ l)
    (acc : List String) : normIframe s ∈ l.foldl addIframe acc := by
  induction l generalizing acc with
  | nil => cases hs
  | cons t rest ih =>
    simp only [List.foldl_cons]
    rcases List.mem_cons.mp hs with rfl | ht
    · have hd : normIframe s ∈ addIframe acc s := by
        rcases addIframe_cases acc s with ⟨hmem, heq⟩ | ⟨_, heq⟩
        · rw [heq]; exact hmem
        · rw [heq]; simp
      exact foldl_addIframe_mem rest hd
    · exact ih ht _

/-! ## Lemmas about `_resolveSource` -/

theorem iframeScan_some {net : Net} {u : String} :
    ∀ {l : List String} {r : String}, iframeScan net u l = some r →
      isTutorialLink r = false ∧ isDirectVideoLink r = true := by
  intro l
  induction l with
  | nil => intro r h; simp [iframeScan] at h
  | cons src rest ih =>
    intro r h
    simp only [iframeScan] at h
    by_cases ht : isTutorialLink (normalizeNested net u src) = true
    · simp only [ht, if_true] at h
      exact ih h
    · have htf := Bool.eq_false_iff.mpr ht
      simp only [htf, Bool.false_eq_true, if_false] at h
      by_cases hd : isDirectVideoLink (normalizeNested net u src) = true
      · simp only [hd, if_true] at h
        injection h with h
        subst h
        exact ⟨htf, hd⟩
      · have hdf := Bool.eq_false_iff.mpr hd
        simp only [hdf, Bool.false_eq_true, if_false] at h
        exact ih h

theorem scriptScan_some :
    ∀ {l : List String} {r : String}, scriptScan l = some r →
      isTutorialLink r = false := by
  intro l
  induction l with
  | nil => intro r h; simp [scriptScan] at h
  | cons link rest ih =>
    intro r h
    simp only [scriptScan] at h
    by_cases ht : isTutorialLink link = true
    · simp only [ht, Bool.not_true, Bool.false_eq_true, if_false] at h
      exact ih h
    · have htf := Bool.eq_false_iff.mpr ht
      simp only [htf, Bool.not_false, if_true] at h
      injection h with h
      subst h
      exact htf

theorem resolveSource_not_tutorial {net : Net} {u r : String}
    (h : resolveSource net u = some r) : isTutorialLink r = false := by
  unfold resolveSource at h
  cases hf : net.fetch u with
  | none => simp [hf] at h
  | some html =>
    simp only [hf] at h
    cases hi : iframeScan net u (net.iframeSrcs html) with
    | some x =>
      simp only [hi] at h
      injection h with h
      subst h
      exact (iframeScan_some hi).1
    | none =>
      simp only [hi] at h
      cases hs : net.scriptLinks html with
      | some links =>
        simp only [hs] at h
        exact scriptScan_some h
      | none => simp [hs] at h

theorem resolveSource_fetch_none {net : Net} {u : String}
    (h : net.fetch u = none) : resolveSource net u = none := by
  unfold resolveSource
  simp [h]

/-! ## Branch equations for the resolution loop -/

theorem resolveLoop_nil (net : Net) (fb : Option String) :
    resolveLoop net fb [] = fb := rfl

theorem resolveLoop_cons_tutorial {net : Net} {fb : Option String} {s : String}
    {rest : List String} (h : isTutorialLink s = true) :
    resolveLoop net fb (s :: rest) = resolveLoop net fb rest := by
  conv_lhs => unfold resolveLoop
  simp [h]

theorem resolveLoop_cons_direct {net : Net} {fb : Option String} {s : String}
    {rest : List String} (ht : isTutorialLink s = false)
    (hd : isDirectVideoLink s = true) :
    resolveLoop net fb (s :: rest) = some s := by
  conv_lhs => unfold resolveLoop
  simp [ht, hd]

theorem resolveLoop_cons_internal_none {net : Net} {fb : Option String}
    {s : String} {rest : List String} (ht : isTutorialLink s = false)
    (hd : isDirectVideoLink s = false)
    (hi : (containsSub s "animedekho.app/embed" ||
           containsSub s "animedekho.app/redirect") = true)
    (hr : resolveSource net s = none) :
    resolveLoop net fb (s :: rest) = resolveLoop net fb rest := by
  conv_lhs => unfold resolveLoop
  simp [ht, hd, hi, hr]

theorem resolveLoop_cons_internal_falsy {net : Net} {fb : Option String}
    {s resolved : String} {rest : List String} (ht : isTutorialLink s = false)
    (hd : isDirectVideoLink s = false)
    (hi : (containsSub s "animedekho.app/embed" ||
           containsSub s "animedekho.app/redirect") = true)
    (hr : resolveSource net s = some resolved)
    (hj : jsTruthy resolved = false) :
    resolveLoop net fb (s :: rest) = resolveLoop net fb rest := by
  conv_lhs => unfold resolveLoop
  simp [ht, hd, hi, hr, hj]

theorem resolveLoop_cons_internal_direct {net : Net} {fb : Option String}
    {s resolved : String} {rest : List String} (ht : isTutorialLink s = false)
    (hd : isDirectVideoLink s = false)
    (hi : (containsSub s "animedekho.app/embed" ||
           containsSub s "animedekho.app/redirect") = true)
    (hr : resolveSource net s = some resolved)
    (hj : jsTruthy resolved = true)
    (hdr : isDirectVideoLink resolved = true) :
    resolveLoop net fb (s :: rest) = some resolved := by
  conv_lhs => unfold resolveLoop
  simp [ht, hd, hi, hr, hj, hdr]

theorem resolveLoop_cons_internal_newfb {net : Net} {fb : Option String}
    {s resolved : String} {rest : List String} (ht : isTutorialLink s = false)
    (hd : isDirectVideoLink s = false)
    (hi : (containsSub s "animedekho.app/embed" ||
           containsSub s "animedekho.app/redirect") = true)
    (hr : resolveSource net s = some resolved)
    (hj : jsTruthy resolved = true)
    (hdr : isDirectVideoLink resolved = false)
    (hc : (!jsTruthyOpt fb && !isTutorialLink resolved) = true) :
    resolveLoop net fb (s :: rest) = resolveLoop net (some resolved) rest := by
  conv_lhs => unfold resolveLoop
  simp [ht, hd, hi, hr, hj, hdr, hc]

theorem resolveLoop_cons_internal_keep {net : Net} {fb : Option String}
    {s resolved : String} {rest : List String} (ht : isTutorialLink s = false)
    (hd : isDirectVideoLink s = false)
    (hi : (containsSub s "animedekho.app/embed" ||
           containsSub s "animedekho.app/redirect") = true)
    (hr : resolveSource net s = some resolved)
    (hj : jsTruthy resolved = true)
    (hdr : isDirectVideoLink resolved = false)
    (hc : (!jsTruthyOpt fb && !isTutorialLink resolved) = false) :
    resolveLoop net fb (s :: rest) = resolveLoop net fb rest := by
  conv_lhs => unfold resolveLoop
  simp [ht, hd, hi, hr, hj, hdr, hc]

theorem resolveLoop_cons_external_newfb {net : Net} {fb : Option String}
    {s : String} {rest : List String} (ht : isTutorialLink s = false)
    (hd : isDirectVideoLink s = false)
    (hi : (containsSub s "animedekho.app/embed" ||
           containsSub s "animedekho.app/redirect") = false)
    (hfb : jsTruthyOpt fb = false) :
    resolveLoop net fb (s :: rest) = resolveLoop net (some s) rest := by
  conv_lhs => unfold resolveLoop
  simp [ht, hd, hi, hfb]

theorem resolveLoop_cons_external_keep {net : Net} {fb : Option String}
    {s : String} {rest : List String} (ht : isTutorialLink s = false)
    (hd : isDirectVideoLink s = false)
    (hi : (containsSub s "animedekho.app/embed" ||
           containsSub s "animedekho.app/redirect") = false)
    (hfb : jsTruthyOpt fb = true) :
    resolveLoop net fb (s :: rest) = resolveLoop net fb rest := by
  conv_lhs => unfold resolveLoop
  simp [ht, hd, hi, hfb]

/-! ## Invariants of the resolution loop -/

/-- Every `some` result of the loop is non-tutorial, provided the incoming
fallback is. -/
theorem resolveLoop_some_not_tutorial {net : Net} :
    ∀ {cs : List String} {fb : Option String} {r : String},
      (∀ x, fb = some x → isTutorialLink x = false) →
      resolveLoop net fb cs = some r → isTutorialLink r = false := by
  intro cs
  induction cs with
  | nil =>
    intro fb r hfb h
    rw [resolveLoop_nil] at h
    exact hfb r h
  | cons s rest ih =>
    intro fb r hfb h
    by_cases ht : isTutorialLink s = true
    · rw [resolveLoop_cons_tutorial ht] at h
      exact ih hfb h
    · have htf := Bool.eq_false_iff.mpr ht
      by_cases hd : isDirectVideoLink s = true
      · rw [resolveLoop_cons_direct htf hd] at h
        injection h with h
        subst h
        exact htf
      · have hdf := Bool.eq_false_iff.mpr hd
        by_cases hi : (containsSub s "animedekho.app/embed" ||
            containsSub s "animedekho.app/redirect") = true
        · cases hr : resolveSource net s with
          | none =>
            rw [resolveLoop_cons_internal_none htf hdf hi hr] at h
            exact ih hfb h
          | some resolved =>
            by_cases hj : jsTruthy resolved = true
            · by_cases hdr : isDirectVideoLink resolved = true
              · rw [resolveLoop_cons_internal_direct htf hdf hi hr hj hdr] at h
                injection h with h
                subst h
                exact resolveSource_not_tutorial hr
              · have hdrf := Bool.eq_false_iff.mpr hdr
                by_cases hc : (!jsTruthyOpt fb && !isTutorialLink resolved) = true
                · rw [resolveLoop_cons_internal_newfb htf hdf hi hr hj hdrf hc] at h
                  refine ih ?_ h
                  intro x hx
                  injection hx with hx
                  subst hx
                  exact resolveSource_not_tutorial hr
                · have hcf := Bool.eq_false_iff.mpr hc
                  rw [resolveLoop_cons_internal_keep htf hdf hi hr hj hdrf hcf] at h
                  exact ih hfb h
            · have hjf := Bool.eq_false_iff.mpr hj
              rw [resolveLoop_cons_internal_falsy htf hdf hi hr hjf] at h
              exact ih hfb h
        · have hif := Bool.eq_false_iff.mpr hi
          by_cases hfb0 : jsTruthyOpt fb = true
          · rw [resolveLoop_cons_external_keep htf hdf hif hfb0] at h
            exact ih hfb h
          · have hfbf := Bool.eq_false_iff.mpr hfb0
            rw [resolveLoop_cons_external_newfb htf hdf hif hfbf] at h
            refine ih ?_ h
            intro x hx
            injection hx with hx
            subst hx
            exact htf

/-- Provenance of a `some` result of the loop: it is the incoming fallback,
a top-level candidate, or the one-level resolution of a top-level
candidate.  Nothing deeper is ever reachable. -/
theorem resolveLoop_provenance {net : Net} :
    ∀ {cs : List String} {fb : Option String} {r : String},
      resolveLoop net fb cs = some r →
      fb = some r ∨ r ∈ cs ∨ ∃ c ∈ cs, resolveSource net c = some r := by
  intro cs
  induction cs with
  | nil =>
    intro fb r h
    rw [resolveLoop_nil] at h
    exact Or.inl h
  | cons s rest ih =>
    intro fb r h
    have lift : fb = some r ∨ r ∈ rest ∨ (∃ c ∈ rest, resolveSource net c = some r) →
        fb = some r ∨ r ∈ s :: rest ∨ ∃ c ∈ s :: rest, resolveSource net c = some r := by
      rintro (h' | h' | ⟨c, hc, hcr⟩)
      · exact Or.inl h'
      · exact Or.inr (Or.inl (List.mem_cons_of_mem _ h'))
      · exact Or.inr (Or.inr ⟨c, List.mem_cons_of_mem _ hc, hcr⟩)
    by_cases ht : isTutorialLink s = true
    · rw [resolveLoop_cons_tutorial ht] at h
      exact lift (ih h)
    · have htf := Bool.eq_false_iff.mpr ht
      by_cases hd : isDirectVideoLink s = true
      · rw [resolveLoop_cons_direct htf hd] at h
        injection h with h
        subst h
        exact Or.inr (Or.inl (List.mem_cons_self _ _))
      · have hdf := Bool.eq_false_iff.mpr hd
        by_cases hi : (containsSub s "animedekho.app/embed" ||
            containsSub s "animedekho.app/redirect") = true
        · cases hr : resolveSource net s with
          | none =>
            rw [resolveLoop_cons_internal_none htf hdf hi hr] at h
            exact lift (ih h)
          | some resolved =>
            by_cases hj : jsTruthy resolved = true
            · by_cases hdr : isDirectVideoLink resolved = true
              · rw [resolveLoop_cons_internal_direct htf hdf hi hr hj hdr] at h
                injection h with h
                subst h
                exact Or.inr (Or.inr ⟨s, List.mem_cons_self _ _, hr⟩)
              · have hdrf := Bool.eq_false_iff.mpr hdr
                by_cases hc : (!jsTruthyOpt fb && !isTutorialLink resolved) = true
                · rw [resolveLoop_cons_internal_newfb htf hdf hi hr hj hdrf hc] at h
                  rcases ih h with h' | h' | ⟨c, hcm, hcr⟩
                  · injection h' with h'
                    subst h'
                    exact Or.inr (Or.inr ⟨s, List.mem_cons_self _ _, hr⟩)
                  · exact Or.inr (Or.inl (List.mem_cons_of_mem _ h'))
                  · exact Or.inr (Or.inr ⟨c, List.mem_cons_of_mem _ hcm, hcr⟩)
                · have hcf := Bool.eq_false_iff.mpr hc
                  rw [resolveLoop_cons_internal_keep htf hdf hi hr hj hdrf hcf] at h
                  exact lift (ih h)
            · have hjf := Bool.eq_false_iff.mpr hj
              rw [resolveLoop_cons_internal_falsy htf hdf hi hr hjf] at h
              exact lift (ih h)
        · have hif := Bool.eq_false_iff.mpr hi
          by_cases hfb0 : jsTruthyOpt fb = true
          · rw [resolveLoop_cons_external_keep htf hdf hif hfb0] at h
            exact lift (ih h)
          · have hfbf := Bool.eq_false_iff.mpr hfb0
            rw [resolveLoop_cons_external_newfb htf hdf hif hfbf] at h
            rcases ih h with h' | h' | ⟨c, hcm, hcr⟩
            · injection h' with h'
              subst h'
              exact Or.inr (Or.inl (List.mem_cons_self _ _))
            · exact Or.inr (Or.inl (List.mem_cons_of_mem _ h'))
            · exact Or.inr (Or.inr ⟨c, List.mem_cons_of_mem _ hcm, hcr⟩)

/-- Placeholder candidates at the front of the sequence are skipped. -/
theorem resolveLoop_skip_tutorials {net : Net} (fb : Option String)
    (rest : List String) :
    ∀ pre : List String, (∀ c ∈ pre, isTutorialLink c = true) →
      resolveLoop net fb (pre ++ rest) = resolveLoop net fb rest := by
  intro pre
  induction pre with
  | nil => intro _; rfl
  | cons c pre' ih =>
    intro hpre
    rw [List.cons_append,
      resolveLoop_cons_tutorial (hpre c (List.mem_cons_self _ _))]
    exact ih fun x hx => hpre x (List.mem_cons_of_mem _ hx)

/-- Once a non-empty fallback is recorded, a tail of non-internal
candidates that are tutorial-or-non-direct cannot change the result. -/
theorem resolveLoop_keep_fallback {net : Net} {a : String}
    (hj : jsTruthy a = true) :
    ∀ post : List String,
      (∀ c ∈ post,
        (containsSub c "animedekho.app/embed" ||
         containsSub c "animedekho.app/redirect") = false ∧
        (isTutorialLink c = false → isDirectVideoLink c = false)) →
      resolveLoop net (some a) post = some a := by
  intro post
  induction post with
  | nil => intro _; rfl
  | cons c rest ih =>
    intro hpost
    obtain ⟨hic, hdc⟩ := hpost c (List.mem_cons_self _ _)
    have htail := fun x hx => hpost x (List.mem_cons_of_mem _ hx)
    by_cases ht : isTutorialLink c = true
    · rw [resolveLoop_cons_tutorial ht]
      exact ih htail
    · have htf := Bool.eq_false_iff.mpr ht
      have hdf := hdc htf
      have hfb : jsTruthyOpt (some a) = true := hj
      rw [resolveLoop_cons_external_keep htf hdf hic hfb]
      exact ih htail

/-- If nothing before `c` can return (no non-tutorial direct candidate, no
internal-indirection candidate whose one-level resolution is direct — only
internal candidates ever get that nested pass), the first non-tutorial
direct candidate `c` is returned as-is, whatever the incoming fallback and
whatever follows it. -/
theorem resolveLoop_first_direct {net : Net} {c : String}
    (htc : isTutorialLink c = false) (hdc : isDirectVideoLink c = true) :
    ∀ pre : List String,
      (∀ x ∈ pre,
        (isDirectVideoLink x = true → isTutorialLink x = true) ∧
        ((containsSub x "animedekho.app/embed" ||
          containsSub x "animedekho.app/redirect") = true →
          ∀ r, resolveSource net x = some r → isDirectVideoLink r = false)) →
      ∀ (fb : Option String) (post : List String),
        resolveLoop net fb (pre ++ c :: post) = some c := by
  intro pre
  induction pre with
  | nil =>
    intro _ fb post
    rw [List.nil_append]
    exact resolveLoop_cons_direct htc hdc
  | cons x pre' ih =>
    intro hpre fb post
    obtain ⟨hxd, hxr⟩ := hpre x (List.mem_cons_self _ _)
    have hpre' := fun y hy => hpre y (List.mem_cons_of_mem _ hy)
    rw [List.cons_append]
    by_cases ht : isTutorialLink x = true
    · rw [resolveLoop_cons_tutorial ht]
      exact ih hpre' fb post
    · have htf := Bool.eq_false_iff.mpr ht
      have hdf : isDirectVideoLink x = false := by
        cases hdx : isDirectVideoLink x
        · rfl
        · exact absurd (hxd hdx) ht
      by_cases hi : (containsSub x "animedekho.app/embed" ||
          containsSub x "animedekho.app/redirect") = true
      · cases hr : resolveSource net x with
        | none =>
          rw [resolveLoop_cons_internal_none htf hdf hi hr]
          exact ih hpre' fb post
        | some resolved =>
          have hdrf : isDirectVideoLink resolved = false := hxr hi resolved hr
          by_cases hj : jsTruthy resolved = true
          · by_cases hcnd : (!jsTruthyOpt fb && !isTutorialLink resolved) = true
            · rw [resolveLoop_cons_internal_newfb htf hdf hi hr hj hdrf hcnd]
              exact ih hpre' _ post
            · have hcf := Bool.eq_false_iff.mpr hcnd
              rw [resolveLoop_cons_internal_keep htf hdf hi hr hj hdrf hcf]
              exact ih hpre' fb post
          · have hjf := Bool.eq_false_iff.mpr hj
            rw [resolveLoop_cons_internal_falsy htf hdf hi hr hjf]
            exact ih hpre' fb post
      · have hif := Bool.eq_false_iff.mpr hi
        by_cases hfb : jsTruthyOpt fb = true
        · rw [resolveLoop_cons_external_keep htf hdf hif hfb]
          exact ih hpre' fb post
        · have hfbf := Bool.eq_false_iff.mpr hfb
          rw [resolveLoop_cons_external_newfb htf hdf hif hfbf]
          exact ih hpre' _ post

/-! ## Claim theorems -/

/-- C2: for every input, the resolver's result is never a URL classified as
placeholder (`_isTutorialLink`) — neither as a direct match nor as the
recorded fallback, whatever the candidate's position in the outer sequence
or in a nested pass; in particular a URL matching both the placeholder
deny-list and the direct-video allow-list is skipped before the allow-list
check can return it. -/
theorem c2_result_never_placeholder (net : Net) (episodeId r : String)
    (h : getEpisodeLink net episodeId = some r) :
    isTutorialLink r = false := by
  unfold getEpisodeLink at h
  cases hf : net.fetch (watchUrl episodeId) with
  | none => simp [hf] at h
  | some html =>
    simp only [hf] at h
    exact resolveLoop_some_not_tutorial (fun x hx => Option.noConfusion hx) h

/-- C9: for any page content from which extraction produces zero
candidates, resolution returns absent. -/
theorem c9_zero_candidates_absent (net : Net) (episodeId html : String)
    (hf : net.fetch (watchUrl episodeId) = some html)
    (hz : extractSources net html = []) :
    getEpisodeLink net episodeId = none := by
  unfold getEpisodeLink
  simp only [hf]
  rw [hz, resolveLoop_nil]

/-- C7: the resolver always returns a value (it is a total function into
`Option String`); a fetch failure on the outer episode page makes the
whole resolution absent, while a fetch failure during the nested one-level
resolution of an internal-indirection candidate is non-fatal: that
candidate yields nothing and the outer loop continues with the rest. -/
theorem c7_failure_semantics (net : Net) (episodeId sourceUrl s : String)
    (fb : Option String) (rest : List String) :
    (net.fetch (watchUrl episodeId) = none →
      getEpisodeLink net episodeId = none) ∧
    (net.fetch sourceUrl = none → resolveSource net sourceUrl = none) ∧
    (isTutorialLink s = false → isDirectVideoLink s = false →
      (containsSub s "animedekho.app/embed" ||
       containsSub s "animedekho.app/redirect") = true →
      net.fetch s = none →
      resolveLoop net fb (s :: rest) = resolveLoop net fb rest) := by
  refine ⟨?_, ?_, ?_⟩
  · intro h
    unfold getEpisodeLink
    simp [h]
  · exact resolveSource_fetch_none
  · intro ht hd hi hf
    exact resolveLoop_cons_internal_none ht hd hi (resolveSource_fetch_none hf)

/-- C4: indirection depth is exactly one.  Any returned URL is a top-level
candidate or the one-level resolution of a top-level candidate, so a
direct link reachable only through two indirection pages (not a top-level
candidate, not the one-level resolution of any top-level candidate) is
never returned. -/
theorem c4_buried_direct_link_never_returned (net : Net)
    (episodeId html b : String)
    (hf : net.fetch (watchUrl episodeId) = some html)
    (hnot : b ∉ extractSources net html)
    (hres : ∀ c ∈ extractSources net html, resolveSource net c ≠ some b) :
    getEpisodeLink net episodeId ≠ some b := by
  intro h
  unfold getEpisodeLink at h
  simp only [hf] at h
  rcases resolveLoop_provenance h with h' | h' | ⟨c, hc, hcr⟩
  · exact Option.noConfusion h'
  · exact hnot h'
  · exact hres c hc hcr

/-- When a nested iframe src starts with neither `//` nor `/`, the
`_resolveSource` normalization leaves it unchanged. -/
theorem normalizeNested_id {net : Net} {sourceUrl src : String}
    (h2 : startsWithStr src "//" = false) (h1 : startsWithStr src "/" = false) :
    normalizeNested net sourceUrl src = src := by
  unfold normalizeNested
  simp [h2, h1]

/-- C1: for the candidate sequence
`[placeholder, generic-embed-A, internal-indirection]` whose indirection
page's iframes are `[placeholder, direct-B]`, resolution returns
`direct-B`: the nested direct match is returned at the point of discovery,
overriding the fallback `generic-embed-A` recorded at the earlier outer
position. -/
theorem c1_nested_direct_overrides_recorded_fallback (net : Net)
    (p a i ihtml p2 b : String)
    (hp : isTutorialLink p = true)
    (hat : isTutorialLink a = false)
    (had : isDirectVideoLink a = false)
    (hai : (containsSub a "animedekho.app/embed" ||
            containsSub a "animedekho.app/redirect") = false)
    (hit : isTutorialLink i = false)
    (hid : isDirectVideoLink i = false)
    (hii : (containsSub i "animedekho.app/embed" ||
            containsSub i "animedekho.app/redirect") = true)
    (hfetch : net.fetch i = some ihtml)
    (hifr : net.iframeSrcs ihtml = [p2, b])
    (hp2 : isTutorialLink (normalizeNested net i p2) = true)
    (hb2 : startsWithStr b "//" = false) (hb1 : startsWithStr b "/" = false)
    (hbt : isTutorialLink b = false) (hbd : isDirectVideoLink b = true) :
    resolveLoop net none [p, a, i] = some b := by
  have hnb : normalizeNested net i b = b := normalizeNested_id hb2 hb1
  have hscan : iframeScan net i [p2, b] = some b := by
    simp only [iframeScan]
    rw [hnb]
    simp [hp2, hbt, hbd]
  have hrs : resolveSource net i = some b := by
    unfold resolveSource
    simp only [hfetch, hifr, hscan]
  have hj : jsTruthy b = true := jsTruthy_of_direct hbd
  have step1 : resolveLoop net none [p, a, i] = resolveLoop net none [a, i] :=
    resolveLoop_cons_tutorial hp
  have step2 : resolveLoop net none [a, i] = resolveLoop net (some a) [i] :=
    resolveLoop_cons_external_newfb hat had hai rfl
  rw [step1, step2]
  exact resolveLoop_cons_internal_direct hit hid hii hrs hj hbd

/-- C5 (amended): over a candidate sequence with no internal-indirection
candidate and no non-placeholder direct candidate, the resolver returns
the first non-placeholder candidate — the first recorded fallback — and
never a later one. -/
theorem c5_amended_fallback_wins_first (net : Net) (pre post : List String)
    (a : String)
    (hnint : ∀ c ∈ pre ++ a :: post,
      (containsSub c "animedekho.app/embed" ||
       containsSub c "animedekho.app/redirect") = false)
    (hnd : ∀ c ∈ pre ++ a :: post,
      isTutorialLink c = false → isDirectVideoLink c = false)
    (hpre : ∀ c ∈ pre, isTutorialLink c = true)
    (hat : isTutorialLink a = false)
    (hj : jsTruthy a = true) :
    resolveLoop net none (pre ++ a :: post) = some a := by
  have hmema : a ∈ pre ++ a :: post :=
    List.mem_append_right _ (List.mem_cons_self _ _)
  have hai := hnint a hmema
  have had := hnd a hmema hat
  rw [resolveLoop_skip_tutorials none (a :: post) pre hpre]
  rw [resolveLoop_cons_external_newfb hat had hai
    (show jsTruthyOpt none = false from rfl)]
  refine resolveLoop_keep_fallback hj post fun c hc => ?_
  have hmemc : c ∈ pre ++ a :: post :=
    List.mem_append_right _ (List.mem_cons_of_mem _ hc)
  exact ⟨hnint c hmemc, hnd c hmemc⟩

/-- C6 (amended): the first non-placeholder direct-video candidate is
returned byte-for-byte and the search stops there — the result does not
depend on any later candidate — provided no earlier candidate is a
non-placeholder direct link and no earlier internal-indirection candidate
resolves, in its one nested pass, to a direct link (non-internal earlier
candidates never get a nested pass, so nothing is assumed about them). -/
theorem c6_amended_first_direct_returned_verbatim (net : Net)
    (pre post : List String) (c : String)
    (hpre : ∀ x ∈ pre,
      (isDirectVideoLink x = true → isTutorialLink x = true) ∧
      ((containsSub x "animedekho.app/embed" ||
        containsSub x "animedekho.app/redirect") = true →
        ∀ r, resolveSource net x = some r → isDirectVideoLink r = false))
    (htc : isTutorialLink c = false) (hdc : isDirectVideoLink c = true) :
    resolveLoop net none (pre ++ c :: post) = some c :=
  resolveLoop_first_direct htc hdc pre hpre none post

/-! ## Spec-side formalization of §4.2 (for claim C3) -/

/-- The fixed deny-list match of §4.2 (first disjunct of the spec's
is-placeholder-link). -/
def denyListMatch (url : String) : Bool :=
  tutorialPatterns.any fun p => containsSub (lowerStr url) (lowerStr p)

/-- "The URL is a generic video-sharing embed" — the YouTube-embed shapes
the code tests for. -/
def genericVideoEmbed (url : String) : Bool :=
  containsSub url "youtube.com/embed/" || containsSub url "youtu.be/"

/-- Modelled from the spec (§4.2): is-placeholder-link as the claim words
it — deny-list match, OR a generic video-sharing embed with no
allow-listed host (the allow-list being the is-direct-video-link list). -/
def spec_isPlaceholderLink (url : String) : Bool :=
  denyListMatch url || (genericVideoEmbed url && !isDirectVideoLink url)

/-- C3 (amended): the code's placeholder predicate is deny-list match OR
generic-video-embed, with no allow-list exemption: a generic-platform
embed is a placeholder even when its host or path contains an
allow-listed substring. -/
theorem c3_amended_placeholder_iff (url : String) :
    isTutorialLink url = (denyListMatch url || genericVideoEmbed url) := by
  by_cases he : url.data.isEmpty = true
  · have hnil : url = "" := by
      cases url with
      | mk d =>
        have hd : d = [] := by simpa using he
        subst hd
        rfl
    subst hnil
    decide
  · have hef : url.data.isEmpty = false := Bool.eq_false_iff.mpr he
    unfold isTutorialLink denyListMatch genericVideoEmbed
    cases hA : tutorialPatterns.any fun p =>
        containsSub (lowerStr url) (lowerStr p) <;>
      cases hY : containsSub url "youtube.com/embed/" <;>
      cases hZ : containsSub url "youtu.be/" <;>
      simp [hef, hA, hY, hZ]

/-- C8: the extraction phase emits its candidates in priority order — a
block of decoded `data-src` candidates, then a block of decoded `dl2.php`
candidates, then a block of normalized raw-iframe candidates — the result
has no duplicate URL under exact string equality, and every admissible
candidate is present (duplicates keep their first occurrence rather than
being lost). -/
theorem c8_extraction_priority_order_and_dedup (net : Net) (html : String) :
    (extractSources net html).Nodup ∧
    (∃ A B C, extractSources net html = A ++ B ++ C ∧
      (∀ x ∈ A, ∃ p ∈ net.dataSrcPayloads html, net.b64decode p = some x) ∧
      (∀ x ∈ B, ∃ p ∈ net.dl2Payloads html, net.b64decode p = some x) ∧
      (∀ x ∈ C, ∃ s ∈ net.iframeSrcs html, x = normIframe s)) ∧
    (∀ p ∈ net.dataSrcPayloads html, ∀ d, net.b64decode p = some d →
      startsWithStr d "http" = true → d ∈ extractSources net html) ∧
    (∀ p ∈ net.dl2Payloads html, ∀ d, net.b64decode p = some d →
      startsWithStr d "http" = true → d ∈ extractSources net html) ∧
    (∀ s ∈ net.iframeSrcs html, normIframe s ∈ extractSources net html) := by
  refine ⟨?_, ?_, ?_, ?_, ?_⟩
  · exact foldl_addIframe_nodup _
      (foldl_addEncoded_nodup net _
        (foldl_addEncoded_nodup net _ List.nodup_nil))
  · obtain ⟨A, hA, hprovA⟩ :=
      foldl_addEncoded_extends net (net.dataSrcPayloads html) []
    obtain ⟨B, hB, hprovB⟩ :=
      foldl_addEncoded_extends net (net.dl2Payloads html)
        ((net.dataSrcPayloads html).foldl (addEncoded net) [])
    obtain ⟨C, hC, hprovC⟩ :=
      foldl_addIframe_extends (net.iframeSrcs html) (encodedSources net html)
    refine ⟨A, B, C, ?_, fun x hx => (hprovA x hx).1,
      fun x hx => (hprovB x hx).1, hprovC⟩
    unfold extractSources
    rw [hC]
    unfold encodedSources
    rw [hB, hA]
    simp
  · intro p hp d hd hs
    unfold extractSources encodedSources
    exact foldl_addIframe_mem _
      (foldl_addEncoded_mem net _ (foldl_addEncoded_complete net hp hd hs _))
  · intro p hp d hd hs
    unfold extractSources encodedSources
    exact foldl_addIframe_mem _ (foldl_addEncoded_complete net hp hd hs _)
  · intro s hs
    unfold extractSources
    exact foldl_addIframe_complete hs _

/-- C10: a decoded `data-src` / `dl2.php` candidate is admitted only when
its decoded value starts with the literal `http` (everything in the
encoded block has that property, so a decoded value without it is
dropped), while raw iframe candidates face no such gate: every iframe
src — origin-prefixed when root-relative — is admitted regardless of its
shape. -/
theorem c10_http_gate_on_encoded_only (net : Net) (html : String) :
    (∀ x ∈ encodedSources net html, startsWithStr x "http" = true) ∧
    (∀ s ∈ net.iframeSrcs html, normIframe s ∈ extractSources net html) := by
  constructor
  · intro x hx
    unfold encodedSources at hx
    obtain ⟨B, hB, hprovB⟩ :=
      foldl_addEncoded_extends net (net.dl2Payloads html)
        ((net.dataSrcPayloads html).foldl (addEncoded net) [])
    rw [hB] at hx
    rcases List.mem_append.mp hx with hx | hx
    · obtain ⟨A, hA, hprovA⟩ :=
        foldl_addEncoded_extends net (net.dataSrcPayloads html) []
      rw [hA] at hx
      rcases List.mem_append.mp hx with hx | hx
      · simp at hx
      · exact (hprovA x hx).2
    · exact (hprovB x hx).2
  · intro s hs
    unfold extractSources
    exact foldl_addIframe_complete hs _

/-! ## Concrete oracles for witnesses and counterexamples -/

/-- An oracle on which every external call fails or returns nothing. -/
def trivNet : Net where
  fetch := fun _ => none
  dataSrcPayloads := fun _ => []
  dl2Payloads := fun _ => []
  iframeSrcs := fun _ => []
  scriptLinks := fun _ => none
  b64decode := fun _ => none
  urlOrigin := fun _ => none

/-- Oracle for the C1 scenario: one internal indirection page whose
iframes are a placeholder followed by a direct link. -/
def exNetC1 : Net where
  fetch := fun u =>
    if u = "https://animedekho.app/embed/xyz" then some "NESTED" else none
  dataSrcPayloads := fun _ => []
  dl2Payloads := fun _ => []
  iframeSrcs := fun h =>
    if h = "NESTED" then
      ["https://youtube.com/embed/53ga7MRcQGg",
       "https://play.zephyrflick.top/video/B"]
    else []
  scriptLinks := fun _ => none
  b64decode := fun _ => none
  urlOrigin := fun _ => some "https://animedekho.app"

/-- Oracle for the C2 witness: the episode page carries one direct raw
iframe candidate. -/
def exNetC2 : Net where
  fetch := fun u => if u = watchUrl "ep1" then some "PAGE" else none
  dataSrcPayloads := fun _ => []
  dl2Payloads := fun _ => []
  iframeSrcs := fun h => if h = "PAGE" then ["https://dood.example/v1"] else []
  scriptLinks := fun _ => none
  b64decode := fun _ => none
  urlOrigin := fun _ => none

/-- Oracle for the C4 witness: the only direct link sits two indirection
pages deep (episode page → embed/l1 → embed/l2 → direct). -/
def exNetC4 : Net where
  fetch := fun u =>
    if u = watchUrl "ep2" then some "PAGE"
    else if u = "https://animedekho.app/embed/l1" then some "MID"
    else if u = "https://animedekho.app/embed/l2" then some "DEEP"
    else none
  dataSrcPayloads := fun _ => []
  dl2Payloads := fun _ => []
  iframeSrcs := fun h =>
    if h = "PAGE" then ["https://animedekho.app/embed/l1"]
    else if h = "MID" then ["https://animedekho.app/embed/l2"]
    else if h = "DEEP" then ["https://vidmoly.example/deep"]
    else []
  scriptLinks := fun _ => none
  b64decode := fun _ => none
  urlOrigin := fun _ => some "https://animedekho.app"

/-- Oracle for the C5 counterexample: an internal indirection page whose
script fallback yields `https://cdn.pixeldraw.net/v/r1` — a string the
script regex of importer.js line 618 really produces on a page containing
it (`[^/]+` matches `cdn.`, the alternative `pixeldraw` matches, and the
trailing class matches `.net/v/r1`) yet the `providers` allow-list (which
spells `pixeldrain`) does not match. -/
def cNetC5 : Net where
  fetch := fun u =>
    if u = "https://animedekho.app/embed/e1" then some "EMB" else none
  dataSrcPayloads := fun _ => []
  dl2Payloads := fun _ => []
  iframeSrcs := fun _ => []
  scriptLinks := fun h =>
    if h = "EMB" then some ["https://cdn.pixeldraw.net/v/r1"] else none
  b64decode := fun _ => none
  urlOrigin := fun _ => none

/-- Oracle for the C8 witness: one payload per encoded phase plus two raw
iframes, one of them root-relative. -/
def exNetC8 : Net where
  fetch := fun _ => none
  dataSrcPayloads := fun h => if h = "H" then ["payloadA"] else []
  dl2Payloads := fun h => if h = "H" then ["payloadB"] else []
  iframeSrcs := fun h => if h = "H" then ["/rel", "https://c.example/raw"] else []
  scriptLinks := fun _ => none
  b64decode := fun p =>
    if p = "payloadA" then some "https://a.example/v"
    else if p = "payloadB" then some "https://b.example/v"
    else none
  urlOrigin := fun _ => none

/-- Oracle for the C10 witness: one payload decodes to an `http` URL, one
to a value without the `http` prefix; one root-relative raw iframe. -/
def exNetC10 : Net where
  fetch := fun _ => none
  dataSrcPayloads := fun h => if h = "H" then ["good", "bad"] else []
  dl2Payloads := fun _ => []
  iframeSrcs := fun h => if h = "H" then ["/rel"] else []
  scriptLinks := fun _ => none
  b64decode := fun p =>
    if p = "good" then some "https://ok.example/v"
    else if p = "bad" then some "relative/path"
    else none
  urlOrigin := fun _ => none

/-- Oracle for the C9 witness: the fetch succeeds but the page yields no
candidates. -/
def exNetC9 : Net where
  fetch := fun _ => some "EMPTY"
  dataSrcPayloads := fun _ => []
  dl2Payloads := fun _ => []
  iframeSrcs := fun _ => []
  scriptLinks := fun _ => none
  b64decode := fun _ => none
  urlOrigin := fun _ => none

/-! ## Witnesses and counterexamples -/

/-- Witness for C1 at the concrete scenario: placeholder, then
generic-embed-A, then the internal indirection whose nested page holds
direct-B; the result is direct-B. -/
theorem c1_witness :
    isTutorialLink "https://youtube.com/embed/KOWcj7XKnfQ" = true ∧
    resolveLoop exNetC1 none
      ["https://youtube.com/embed/KOWcj7XKnfQ",
       "https://example.com/mirror/a",
       "https://animedekho.app/embed/xyz"] =
      some "https://play.zephyrflick.top/video/B" :=
  ⟨by decide,
   c1_nested_direct_overrides_recorded_fallback exNetC1
     "https://youtube.com/embed/KOWcj7XKnfQ" "https://example.com/mirror/a"
     "https://animedekho.app/embed/xyz" "NESTED"
     "https://youtube.com/embed/53ga7MRcQGg"
     "https://play.zephyrflick.top/video/B"
     (by decide) (by decide) (by decide) (by decide) (by decide) (by decide)
     (by decide) (by decide) (by decide) (by decide) (by decide) (by decide)
     (by decide) (by decide)⟩

/-- Witness for C2: a run that produces a result, and that result is not a
placeholder. -/
theorem c2_witness :
    getEpisodeLink exNetC2 "ep1" = some "https://dood.example/v1" ∧
    isTutorialLink "https://dood.example/v1" = false :=
  ⟨by decide,
   c2_result_never_placeholder exNetC2 "ep1" "https://dood.example/v1"
     (by decide)⟩

/-- Witness for C4: the direct link `https://vidmoly.example/deep` is
reachable by resolving the second-level indirection page, yet full
resolution never returns it (here it returns absent). -/
theorem c4_witness :
    resolveSource exNetC4 "https://animedekho.app/embed/l2" =
      some "https://vidmoly.example/deep" ∧
    getEpisodeLink exNetC4 "ep2" = none ∧
    getEpisodeLink exNetC4 "ep2" ≠ some "https://vidmoly.example/deep" :=
  ⟨by decide, by decide,
   c4_buried_direct_link_never_returned exNetC4 "ep2" "PAGE"
     "https://vidmoly.example/deep" (by decide) (by decide) (by decide)⟩

/-- Witness for C5 (amended): a placeholder, then two plain external
candidates; the first external candidate wins. -/
theorem c5_witness :
    resolveLoop trivNet none
      (["https://youtube.com/embed/KOWcj7XKnfQ"] ++
        "https://example.com/mirror/a" :: ["https://example.com/mirror/b"]) =
      some "https://example.com/mirror/a" :=
  c5_amended_fallback_wins_first trivNet
    ["https://youtube.com/embed/KOWcj7XKnfQ"] ["https://example.com/mirror/b"]
    "https://example.com/mirror/a"
    (by decide) (by decide) (by decide) (by decide) (by decide)

/-- Witness for C6 (amended): a placeholder, then a direct candidate,
then a further candidate; the direct candidate is returned unchanged. -/
theorem c6_witness :
    resolveLoop trivNet none
      (["https://youtube.com/embed/KOWcj7XKnfQ"] ++
        "https://dood.example/clip-a" :: ["https://example.com/mirror/z"]) =
      some "https://dood.example/clip-a" :=
  c6_amended_first_direct_returned_verbatim trivNet
    ["https://youtube.com/embed/KOWcj7XKnfQ"] ["https://example.com/mirror/z"]
    "https://dood.example/clip-a"
    (by
      intro x hx
      have hxe : x = "https://youtube.com/embed/KOWcj7XKnfQ" := by simpa using hx
      subst hxe
      refine ⟨by decide, ?_⟩
      intro hint r hr
      rw [resolveSource_fetch_none (rfl : trivNet.fetch _ = none)] at hr
      exact Option.noConfusion hr)
    (by decide) (by decide)

/-- Witness for C7: the three failure behaviours at concrete inputs on an
oracle whose fetches all fail. -/
theorem c7_witness :
    getEpisodeLink trivNet "ep1" = none ∧
    resolveSource trivNet "https://x.example/p" = none ∧
    resolveLoop trivNet none ["https://animedekho.app/embed/e1"] =
      resolveLoop trivNet none [] :=
  ⟨(c7_failure_semantics trivNet "ep1" "https://x.example/p"
      "https://animedekho.app/embed/e1" none []).1 rfl,
   (c7_failure_semantics trivNet "ep1" "https://x.example/p"
      "https://animedekho.app/embed/e1" none []).2.1 rfl,
   (c7_failure_semantics trivNet "ep1" "https://x.example/p"
      "https://animedekho.app/embed/e1" none []).2.2
     (by decide) (by decide) (by decide) rfl⟩

/-- Witness for C8 at a concrete page: the extracted sequence is
duplicate-free and contains the decoded `data-src` candidate and the
origin-prefixed relative iframe. -/
theorem c8_witness :
    (extractSources exNetC8 "H").Nodup ∧
    "https://a.example/v" ∈ extractSources exNetC8 "H" ∧
    normIframe "/rel" ∈ extractSources exNetC8 "H" :=
  ⟨(c8_extraction_priority_order_and_dedup exNetC8 "H").1,
   (c8_extraction_priority_order_and_dedup exNetC8 "H").2.2.1 "payloadA"
     (by decide) "https://a.example/v" (by decide) (by decide),
   (c8_extraction_priority_order_and_dedup exNetC8 "H").2.2.2.2 "/rel"
     (by decide)⟩

/-- Witness for C9: fetch succeeds, extraction is empty, resolution is
absent. -/
theorem c9_witness : getEpisodeLink exNetC9 "ep9" = none :=
  c9_zero_candidates_absent exNetC9 "ep9" "EMPTY" rfl rfl

/-- Witness for C10 at a concrete page: every encoded candidate starts
with `http` (the non-`http` decode was dropped), while the relative raw
iframe is admitted with the site origin prefixed. -/
theorem c10_witness :
    (∀ x ∈ encodedSources exNetC10 "H", startsWithStr x "http" = true) ∧
    normIframe "/rel" ∈ extractSources exNetC10 "H" ∧
    "relative/path" ∉ encodedSources exNetC10 "H" :=
  ⟨(c10_http_gate_on_encoded_only exNetC10 "H").1,
   (c10_http_gate_on_encoded_only exNetC10 "H").2 "/rel" (by decide),
   by decide⟩

/-- Counterexample to C3 as stated: the URL
`https://youtube.com/embed/streamclip` matches no deny-list entry and
contains the allow-listed substring `stream`, so the claimed
characterization says it is not a placeholder — yet the code classifies
it as one (the YouTube-embed check never consults the allow-list). -/
theorem c3_counterexample :
    isTutorialLink "https://youtube.com/embed/streamclip" = true ∧
    isDirectVideoLink "https://youtube.com/embed/streamclip" = true ∧
    denyListMatch "https://youtube.com/embed/streamclip" = false ∧
    spec_isPlaceholderLink "https://youtube.com/embed/streamclip" = false := by
  decide

/-- Counterexample to C5 as stated: the sequence
`[internal-indirection, generic-A, generic-B]` has two non-placeholder,
non-direct, non-internal candidates and yields no direct match, yet the
resolver returns the (non-direct) one-level resolution of the indirection
candidate, not the first generic candidate. -/
theorem c5_counterexample :
    isTutorialLink "https://example.com/mirror/a" = false ∧
    isDirectVideoLink "https://example.com/mirror/a" = false ∧
    (containsSub "https://example.com/mirror/a" "animedekho.app/embed" ||
     containsSub "https://example.com/mirror/a" "animedekho.app/redirect") =
      false ∧
    isTutorialLink "https://example.com/mirror/b" = false ∧
    isDirectVideoLink "https://example.com/mirror/b" = false ∧
    (containsSub "https://example.com/mirror/b" "animedekho.app/embed" ||
     containsSub "https://example.com/mirror/b" "animedekho.app/redirect") =
      false ∧
    isDirectVideoLink "https://cdn.pixeldraw.net/v/r1" = false ∧
    resolveLoop cNetC5 none
      ["https://animedekho.app/embed/e1", "https://example.com/mirror/a",
       "https://example.com/mirror/b"] = some "https://cdn.pixeldraw.net/v/r1" ∧
    "https://cdn.pixeldraw.net/v/r1" ≠ "https://example.com/mirror/a" := by
  decide

/-- Counterexample to C6 as stated: with two direct, non-placeholder
candidates (no placeholder anywhere), the second one is a direct
candidate appearing before any placeholder, yet the resolver returns the
first one, not it. -/
theorem c6_counterexample :
    isDirectVideoLink "https://dood.example/clip-b" = true ∧
    isTutorialLink "https://dood.example/clip-b" = false ∧
    isTutorialLink "https://dood.example/clip-a" = false ∧
    resolveLoop trivNet none
      ["https://dood.example/clip-a", "https://dood.example/clip-b"] =
      some "https://dood.example/clip-a" ∧
    "https://dood.example/clip-a" ≠ "https://dood.example/clip-b" := by
  decide
